import Mathlib

/-!
Verification of the bbolt-poc item service (src/main.go).

The program is an HTTP CRUD service over a bbolt store with a single
bucket named "items".  We embed each handler as a pure function of the
store state.  The store state is `Option Bucket`: `none` models a store
in which the "items" bucket does not exist (the `tx.Bucket` call returns
nil), and `some b` models an existing bucket `b`, kept as a list of
key/value pairs in key order (bbolt buckets iterate in byte-key order).

Stored values are the bytes produced by `json.Marshal`; we model a byte
payload as either a well-formed JSON document (`JsonDoc.val`) or bytes
that are not valid JSON (`JsonDoc.invalid`), which is what decoding
needs to distinguish.
-/

namespace BboltPoc

/-- JSON values, as produced and consumed by Go's encoding/json. -/
inductive JVal where
  | null
  | bool (b : Bool)
  | num (n : Int)
  | str (s : String)
  | arr (elems : List JVal)
  | obj (fields : List (String × JVal))

/-- A byte payload as seen by the codec: either a well-formed JSON
document or bytes that do not parse as JSON at all. -/
inductive JsonDoc where
  | val (v : JVal)
  | invalid (raw : String)

/-- The Item struct of main.go: ID and Name strings with json tags
"id" and "name". -/
structure Item where
  ID : String
  Name : String
deriving DecidableEq

/-- json.Marshal of an Item, at the JSON-value level: an object with
fields "id" and "name" (field-for-field, never fails for a struct of
two strings). -/
def goMarshalItemJ (x : Item) : JVal :=
  .obj [("id", .str x.ID), ("name", .str x.Name)]

/-- json.Marshal of an Item as a stored byte payload. -/
def goMarshalItem (x : Item) : JsonDoc :=
  .val (goMarshalItemJ x)

/-- ASCII case folding of one character, as Go's encoding/json applies
to field names when matching them against struct tags. -/
def foldChar (c : Char) : Char :=
  if 'A' ≤ c ∧ c ≤ 'Z' then Char.ofNat (c.toNat + 32) else c

/-- ASCII case folding of a field name, for case-insensitive matching. -/
def foldKey (s : String) : List Char := s.data.map foldChar

/-- json.Unmarshal field loop for the Item struct: fields are matched
to the json tags "id"/"name" (Go matches ASCII-case-insensitively), a
string value sets the field, a JSON null leaves the field untouched,
any other value type is a type-mismatch error, unknown fields are
skipped, and a later duplicate field overwrites an earlier one. -/
def unmarshalItemFields : List (String × JVal) → Item → Except Unit Item
  | [], acc => .ok acc
  | (k, v) :: rest, acc =>
    if foldKey k = foldKey "id" then
      match v with
      | .str s => unmarshalItemFields rest { acc with ID := s }
      | .null => unmarshalItemFields rest acc
      | _ => .error ()
    else if foldKey k = foldKey "name" then
      match v with
      | .str s => unmarshalItemFields rest { acc with Name := s }
      | .null => unmarshalItemFields rest acc
      | _ => .error ()
    else
      unmarshalItemFields rest acc

/-- json.Unmarshal of a byte payload into a fresh `var item Item`
(zero value): invalid JSON is an error, a JSON object is decoded field
by field, a top-level JSON null is a no-op leaving the zero value, and
any other top-level value is a type-mismatch error. -/
def goUnmarshalItem : JsonDoc → Except Unit Item
  | .invalid _ => .error ()
  | .val (.obj fields) => unmarshalItemFields fields ⟨"", ""⟩
  | .val .null => .ok ⟨"", ""⟩
  | .val _ => .error ()

/-- A bbolt bucket: key/value pairs kept in ascending key order. -/
abbrev Bucket := List (String × JsonDoc)

/-- The store state: `none` when the "items" bucket does not exist
(tx.Bucket returns nil), otherwise the bucket contents. -/
abbrev DB := Option Bucket

/-- Bucket.Get: the value stored under a key, or none (bbolt returns
nil for an absent key). -/
def bucketGet : Bucket → String → Option JsonDoc
  | [], _ => none
  | (k', v) :: rest, k => if k' = k then some v else bucketGet rest k

/-- Order-preserving upsert: insert the pair at its key position,
replacing the value if the key is already present. -/
def bucketPut : Bucket → String → JsonDoc → Bucket
  | [], k, v => [(k, v)]
  | (k', v') :: rest, k, v =>
    if k < k' then (k, v) :: (k', v') :: rest
    else if k = k' then (k, v) :: rest
    else (k', v') :: bucketPut rest k v

/-- The error bbolt's Bucket.Put returns for an empty key. -/
inductive PutErr where
  | keyRequired

/-- Bucket.Put: rejects an empty key with ErrKeyRequired, otherwise
upserts. (bbolt's oversize key/value limits are not reached by these
claims and are not modelled.) -/
def bucketPutOp (b : Bucket) (k : String) (v : JsonDoc) : Except PutErr Bucket :=
  if k = "" then .error .keyRequired else .ok (bucketPut b k v)

/-- Bucket.Delete: removes the key if present; deleting an absent key
succeeds and changes nothing. -/
def bucketDelete : Bucket → String → Bucket
  | [], _ => []
  | (k', v) :: rest, k => if k' = k then rest else (k', v) :: bucketDelete rest k

/-- Point lookup through the optional bucket. -/
def dbGet (db : DB) (k : String) : Option JsonDoc :=
  match db with
  | none => none
  | some b => bucketGet b k

/-- The observable outcome of a handler at the HTTP boundary: the
status code actually sent (the first explicit or implicit WriteHeader
wins) and the JSON document written by json.NewEncoder, if any.  (The
plain-text bodies of http.Error / http.NotFound are not modelled.) -/
structure Resp where
  status : Nat
  jsonBody : Option JVal

/-- json.Marshal of the handler's `[]Item` slice.  The slice in
getAllItems starts as nil (`var items []Item`) and only append makes it
non-nil, so it is nil exactly when it is empty; Go encodes a nil slice
as JSON null and a non-nil slice as a JSON array. -/
def goEncodeItemSlice (l : List Item) : JVal :=
  match l with
  | [] => .null
  | _ => .arr (l.map goMarshalItemJ)

/-- The b.ForEach loop of getAllItems: unmarshal each value in order,
appending to the accumulator; the first unmarshal error aborts the
iteration and is returned. -/
def forEachDecode : List (String × JsonDoc) → List Item → Except Unit (List Item)
  | [], acc => .ok acc
  | (_, v) :: rest, acc =>
    match goUnmarshalItem v with
    | .error e => .error e
    | .ok item => forEachDecode rest (acc ++ [item])

/-- Handler getAllItems (GET /items): View transaction; a nil bucket
returns nil leaving the slice empty; otherwise ForEach decodes every
value; an error gives 500 with no JSON body, success encodes the slice
(nil slice encodes as JSON null). -/
def getAllItems (db : DB) : Resp :=
  match db with
  | none => ⟨200, some (goEncodeItemSlice [])⟩
  | some b =>
    match forEachDecode b [] with
    | .error _ => ⟨500, none⟩
    | .ok items => ⟨200, some (goEncodeItemSlice items)⟩

/-- Handler getItem (GET /items/id): View transaction.  A nil bucket
returns nil WITHOUT writing 404, so the handler falls through and
encodes the zero-valued Item with status 200.  An absent key writes 404
via http.NotFound, returns nil, and the handler then also encodes the
zero Item into the already-committed 404 response.  A present key is
unmarshalled: failure gives 500, success encodes the Item with 200. -/
def getItem (db : DB) (id : String) : Resp :=
  match db with
  | none => ⟨200, some (goMarshalItemJ ⟨"", ""⟩)⟩
  | some b =>
    match bucketGet b id with
    | none => ⟨404, some (goMarshalItemJ ⟨"", ""⟩)⟩
    | some v =>
      match goUnmarshalItem v with
      | .error _ => ⟨500, none⟩
      | .ok item => ⟨200, some (goMarshalItemJ item)⟩

/-- Handler createItem (POST /items): decode the request body (400 on
failure), then an Update transaction: a nil bucket returns nil (silent
no-op, still 201); otherwise marshal (never fails for Item) and Put
under key item.ID; a Put error aborts the transaction and gives 500
with the store unchanged; success commits and writes 201. -/
def createItem (db : DB) (body : JsonDoc) : DB × Resp :=
  match goUnmarshalItem body with
  | .error _ => (db, ⟨400, none⟩)
  | .ok item =>
    match db with
    | none => (db, ⟨201, none⟩)
    | some b =>
      match bucketPutOp b item.ID (goMarshalItem item) with
      | .error _ => (db, ⟨500, none⟩)
      | .ok b' => (some b', ⟨201, none⟩)

/-- Handler updateItem (PUT /items/id): decode the request body (400 on
failure), then an Update transaction: a nil bucket returns nil (silent
no-op); otherwise marshal and Put under the route parameter id, NOT
item.ID; Put error gives 500 with the store unchanged; success commits
and the handler returns with implicit status 200 and no body. -/
def updateItem (db : DB) (id : String) (body : JsonDoc) : DB × Resp :=
  match goUnmarshalItem body with
  | .error _ => (db, ⟨400, none⟩)
  | .ok item =>
    match db with
    | none => (db, ⟨200, none⟩)
    | some b =>
      match bucketPutOp b id (goMarshalItem item) with
      | .error _ => (db, ⟨500, none⟩)
      | .ok b' => (some b', ⟨200, none⟩)

/-- Handler deleteItem (DELETE /items/id): an Update transaction: a nil
bucket returns nil (silent no-op); otherwise Delete the route key
(bbolt's Delete of an absent key succeeds); the handler returns with
implicit status 200 and no body. -/
def deleteItem (db : DB) (id : String) : DB × Resp :=
  match db with
  | none => (db, ⟨200, none⟩)
  | some b => (some (bucketDelete b id), ⟨200, none⟩)

/-! Helper lemmas about the codec and the bucket operations. -/

theorem goUnmarshal_goMarshal (x : Item) : goUnmarshalItem (goMarshalItem x) = .ok x := by
  cases x
  rfl

theorem bucketGet_put_self (b : Bucket) (k : String) (v : JsonDoc) :
    bucketGet (bucketPut b k v) k = some v := by
  induction b with
  | nil => simp [bucketPut, bucketGet]
  | cons hd tl ih =>
    obtain ⟨k', v'⟩ := hd
    by_cases h1 : k < k'
    · simp [bucketPut, h1, bucketGet]
    · by_cases h2 : k = k'
      · simp [bucketPut, h1, h2, bucketGet]
      · have h2' : ¬ k' = k := fun h => h2 h.symm
        simp [bucketPut, h1, h2, bucketGet, h2', ih]

theorem bucketGet_put_ne (b : Bucket) (i k : String) (v : JsonDoc) (h : k ≠ i) :
    bucketGet (bucketPut b i v) k = bucketGet b k := by
  have hik : ¬ i = k := fun hh => h hh.symm
  induction b with
  | nil => simp [bucketPut, bucketGet, hik]
  | cons hd tl ih =>
    obtain ⟨k', v'⟩ := hd
    by_cases h1 : i < k'
    · simp [bucketPut, h1, bucketGet, hik]
    · by_cases h2 : i = k'
      · subst h2
        simp [bucketPut, h1, bucketGet, hik]
      · simp [bucketPut, h1, h2, bucketGet, ih]

theorem bucketGet_delete_ne (b : Bucket) (i k : String) (h : k ≠ i) :
    bucketGet (bucketDelete b i) k = bucketGet b k := by
  induction b with
  | nil => simp [bucketDelete]
  | cons hd tl ih =>
    obtain ⟨k', v'⟩ := hd
    by_cases h1 : k' = i
    · subst h1
      have : ¬ k' = k := fun hh => h hh.symm
      simp [bucketDelete, bucketGet, this]
    · simp [bucketDelete, h1, bucketGet, ih]

theorem forEachDecode_error (l : List (String × JsonDoc)) (acc : List Item)
    (h : ∃ kv ∈ l, goUnmarshalItem kv.2 = .error ()) :
    forEachDecode l acc = .error () := by
  induction l generalizing acc with
  | nil => simp at h
  | cons hd tl ih =>
    obtain ⟨kv, hmem, herr⟩ := h
    obtain ⟨hk, hv⟩ := hd
    rcases List.mem_cons.mp hmem with heq | hmem'
    · subst heq
      simp [forEachDecode, herr]
    · cases hdec : goUnmarshalItem hv with
      | error e => simp [forEachDecode, hdec]
      | ok item => simp [forEachDecode, hdec, ih _ ⟨kv, hmem', herr⟩]

/-! Claim theorems. -/

/-- C1: evaluation of getItem at the failing input.  With the items
namespace absent, the nil-bucket branch returns nil without writing
404, so the handler encodes the zero Item and responds 200 with
an Item body — not the 404 the claim requires. -/
theorem getItem_missing_namespace_responds_200 :
    getItem none "x" = ⟨200, some (goMarshalItemJ ⟨"", ""⟩)⟩ ∧
    (getItem none "x").status ≠ 404 :=
  ⟨rfl, by decide⟩

/-- C2: evaluation of getAllItems on an empty (and on a missing) items
namespace: the handler's nil slice is encoded as JSON null, so the
response is 200 with body null — not the empty array the claim
requires. -/
theorem getAllItems_empty_responds_null :
    getAllItems (some []) = ⟨200, some JVal.null⟩ ∧
    getAllItems none = ⟨200, some JVal.null⟩ :=
  ⟨rfl, rfl⟩

/-- C3: for every valid Item x (non-empty ID) and every existing items
namespace, Create(x) commits successfully (201) and the subsequent
Read(x.ID) responds 200 with an Item equal to x.  (The namespace exists
throughout normal operation: main creates it at startup before any
request is served.) -/
theorem create_then_read (b : Bucket) (x : Item) (h : x.ID ≠ "") :
    createItem (some b) (goMarshalItem x) =
      (some (bucketPut b x.ID (goMarshalItem x)), ⟨201, none⟩) ∧
    getItem (some (bucketPut b x.ID (goMarshalItem x))) x.ID =
      ⟨200, some (goMarshalItemJ x)⟩ := by
  constructor
  · simp [createItem, goUnmarshal_goMarshal, bucketPutOp, h]
  · simp [getItem, bucketGet_put_self, goUnmarshal_goMarshal]

/-- C3 witness: the scenario at b = [], x = Item "1" "Widget". -/
theorem create_then_read_witness :
    createItem (some []) (goMarshalItem ⟨"1", "Widget"⟩) =
      (some (bucketPut [] "1" (goMarshalItem ⟨"1", "Widget"⟩)), ⟨201, none⟩) ∧
    getItem (some (bucketPut [] "1" (goMarshalItem ⟨"1", "Widget"⟩))) "1" =
      ⟨200, some (goMarshalItemJ ⟨"1", "Widget"⟩)⟩ :=
  create_then_read [] ⟨"1", "Widget"⟩ (by decide)

/-- C4: on an empty store, Update under route key "a" with payload
Item "b" "n" stores the payload under "a": Read("a") responds 200 with
the payload, and Read("b") responds 404. -/
theorem update_by_route_key :
    updateItem (some []) "a" (goMarshalItem ⟨"b", "n"⟩) =
      (some [("a", goMarshalItem ⟨"b", "n"⟩)], ⟨200, none⟩) ∧
    getItem (some [("a", goMarshalItem ⟨"b", "n"⟩)]) "a" =
      ⟨200, some (goMarshalItemJ ⟨"b", "n"⟩)⟩ ∧
    (getItem (some [("a", goMarshalItem ⟨"b", "n"⟩)]) "b").status = 404 :=
  ⟨rfl, rfl, rfl⟩

/-- C5: whenever the items namespace exists and at least one stored
value fails to unmarshal as an Item, getAllItems responds 500 with no
JSON body: the iteration is aborted and no partial sequence of Items is
returned. -/
theorem readAll_decode_failure_aborts (b : Bucket)
    (h : ∃ kv ∈ b, goUnmarshalItem kv.2 = .error ()) :
    getAllItems (some b) = ⟨500, none⟩ := by
  simp [getAllItems, forEachDecode_error b [] h]

/-- C5 witness: a one-entry bucket whose value is the JSON number 0,
which does not unmarshal as an Item. -/
theorem readAll_decode_failure_aborts_witness :
    getAllItems (some [("k", JsonDoc.val (.num 0))]) = ⟨500, none⟩ :=
  readAll_decode_failure_aborts _
    ⟨("k", JsonDoc.val (.num 0)), List.mem_singleton.mpr rfl, rfl⟩

/-- C6: evaluation at the failing store state.  On a store whose items
namespace is absent, Delete("a") commits successfully (200, state
unchanged), but the subsequent Read("a") responds 200 with the zero
Item — not the 404 NotFound the claim requires for every store
state. -/
theorem delete_then_read_missing_namespace :
    deleteItem none "a" = (none, ⟨200, none⟩) ∧
    getItem none "a" = ⟨200, some (goMarshalItemJ ⟨"", ""⟩)⟩ ∧
    (getItem none "a").status ≠ 404 :=
  ⟨rfl, rfl, by decide⟩

/-- C7: the codec round-trips: for every Item x (in particular every
valid one), unmarshalling the marshalled bytes of x yields exactly
x. -/
theorem marshal_unmarshal_roundtrip (x : Item) :
    goUnmarshalItem (goMarshalItem x) = .ok x :=
  goUnmarshal_goMarshal x

/-- C8: when the items namespace does not exist, each write handler is
a silent successful no-op: createItem responds 201, updateItem 200 and
deleteItem 200, all with no error status and with the store state
unchanged. -/
theorem missing_namespace_writes_are_noops (body : JsonDoc) (id : String) (item : Item)
    (h : goUnmarshalItem body = .ok item) :
    createItem none body = (none, ⟨201, none⟩) ∧
    updateItem none id body = (none, ⟨200, none⟩) ∧
    deleteItem none id = (none, ⟨200, none⟩) := by
  refine ⟨?_, ?_, rfl⟩
  · simp [createItem, h]
  · simp [updateItem, h]

/-- C8 witness: at the body marshalling Item "a" "n" and route id
"a". -/
theorem missing_namespace_writes_are_noops_witness :
    createItem none (goMarshalItem ⟨"a", "n"⟩) = (none, ⟨201, none⟩) ∧
    updateItem none "a" (goMarshalItem ⟨"a", "n"⟩) = (none, ⟨200, none⟩) ∧
    deleteItem none "a" = (none, ⟨200, none⟩) :=
  missing_namespace_writes_are_noops _ "a" ⟨"a", "n"⟩ rfl

/-- C9: creating an Item whose ID is the empty string surfaces a
StorageError (bbolt's Put rejects the empty key with ErrKeyRequired):
the handler responds 500 and the bucket is unchanged, so no entry is
created under the empty key. -/
theorem create_empty_id_errors (b : Bucket) (body : JsonDoc) (item : Item)
    (hb : goUnmarshalItem body = .ok item) (h : item.ID = "") :
    createItem (some b) body = (some b, ⟨500, none⟩) := by
  simp [createItem, hb, bucketPutOp, h]

/-- C9 witness: creating Item "" "n" on an empty bucket. -/
theorem create_empty_id_errors_witness :
    createItem (some []) (goMarshalItem ⟨"", "n"⟩) = (some [], ⟨500, none⟩) :=
  create_empty_id_errors [] _ ⟨"", "n"⟩ rfl rfl

/-- C10: each write handler touches only its target key: for every
store state, createItem leaves every key other than item.ID unchanged,
and updateItem and deleteItem leave every key other than the route id
unchanged. -/
theorem writes_touch_only_target_key (db : DB) (body : JsonDoc) (id k : String) (item : Item)
    (hbody : goUnmarshalItem body = .ok item) :
    (k ≠ item.ID → dbGet (createItem db body).1 k = dbGet db k) ∧
    (k ≠ id → dbGet (updateItem db id body).1 k = dbGet db k) ∧
    (k ≠ id → dbGet (deleteItem db id).1 k = dbGet db k) := by
  refine ⟨fun hk => ?_, fun hk => ?_, fun hk => ?_⟩
  · cases db with
    | none => simp [createItem, hbody]
    | some b =>
      by_cases hid : item.ID = ""
      · simp [createItem, hbody, bucketPutOp, hid]
      · simp [createItem, hbody, bucketPutOp, hid, dbGet,
          bucketGet_put_ne b item.ID k (goMarshalItem item) hk]
  · cases db with
    | none => simp [updateItem, hbody]
    | some b =>
      by_cases hid : id = ""
      · simp [updateItem, hbody, bucketPutOp, hid]
      · simp [updateItem, hbody, bucketPutOp, hid, dbGet,
          bucketGet_put_ne b id k (goMarshalItem item) hk]
  · cases db with
    | none => rfl
    | some b => simp [deleteItem, dbGet, bucketGet_delete_ne b id k hk]

/-- C10 witness: the frame property at a concrete store, body, route id
"a" and other key "z". -/
theorem writes_touch_only_target_key_witness :
    dbGet (createItem (some []) (goMarshalItem ⟨"a", "n"⟩)).1 "z" = dbGet (some []) "z" ∧
    dbGet (updateItem (some []) "a" (goMarshalItem ⟨"a", "n"⟩)).1 "z" = dbGet (some []) "z" ∧
    dbGet (deleteItem (some []) "a").1 "z" = dbGet (some []) "z" := by
  have h := writes_touch_only_target_key (some []) (goMarshalItem ⟨"a", "n"⟩) "a" "z"
    ⟨"a", "n"⟩ rfl
  exact ⟨h.1 (by decide), h.2.1 (by decide), h.2.2 (by decide)⟩

end BboltPoc
